import Mathlib

/-!
Verification of the work-item hierarchy builder of
`AzureDevOpsClientModels.py` (`get_work_items_hierarchy`, together with
`WorkItemDetails` and its `to_dict` serialization).

The Python function extracts a flat list `relations` of
`(source_id, target_id)` pairs from a WIQL response, fetches per-id metadata
into the insertion-ordered dictionary `work_items_dict` (one fetch per id,
skipped when the fetch fails), then

  * adds every `target_id` to the set `child_items` and, when both ids are
    present in `work_items_dict`, appends the child node object to the
    parent node's `items` list;
  * collects as `root_items` every dictionary id not in `child_items`,
    in dictionary (= first-appearance) order;
  * stably sorts `root_items` and every node's `items` by the fixed
    type-rank table of `sort_by_type`;
  * serializes every root with the recursive `to_dict`.

The embedding below is faithful to that code: the remote fetch is an
arbitrary function `fetch : Nat → Option WorkItemDetails` (`none` models a
non-200 response), the insertion-ordered Python dict is an association list
ordered by first insertion, the shared mutable node objects are represented
by their integer ids with a separate child-list map, Python's stable
`list.sort(key=...)` is a stable insertion sort by the same key, and the
unbounded recursion of `to_dict` is given explicit fuel (`none` models a
`RecursionError`).
-/

/-- Metadata record of one work item, mirroring the fields assigned in
`WorkItemDetails.__init__` and emitted by `to_dict`.  The recursive
`items` list is kept outside this record (see `attach_items`): in Python it
holds references to other shared node objects, which we represent by id. -/
structure WorkItemDetails where
  id : Nat
  url : String
  title : String
  description : String
  work_item_type : String
  state : String
  assigned_to : String
  area_path : String
  team_project : String
  iteration_path : String
  reason : String
  comment_count : Nat
  changed_date : String
  created_date : String
  board_column : String
  board_column_done : Bool
  state_change_date : String
  priority : Nat
  value_area : String
  kanban_column : String
  kanban_column_done : Bool
  created_by : String
  changed_by : String
  comments : List String

/-- Replace the `id` field, mirroring `WorkItemDetails(id=item_id, ...)` in
the fetch loop, which always stores the dictionary key as the node id. -/
def set_id (m : WorkItemDetails) (i : Nat) : WorkItemDetails :=
  ⟨i, m.url, m.title, m.description, m.work_item_type, m.state, m.assigned_to,
   m.area_path, m.team_project, m.iteration_path, m.reason, m.comment_count,
   m.changed_date, m.created_date, m.board_column, m.board_column_done,
   m.state_change_date, m.priority, m.value_area, m.kanban_column,
   m.kanban_column_done, m.created_by, m.changed_by, m.comments⟩

/-- Lookup in the insertion-ordered dictionary (association list). -/
def lookupId (dict : List (Nat × WorkItemDetails)) (i : Nat) : Option WorkItemDetails :=
  match dict with
  | [] => none
  | (k, m) :: rest => if k = i then some m else lookupId rest i

/-- One step of the fetch loop: `if item_id not in work_items_dict:` fetch
the item and, when the request succeeds, append it to the dictionary. -/
def insertItem (fetch : Nat → Option WorkItemDetails)
    (dict : List (Nat × WorkItemDetails)) (item_id : Nat) :
    List (Nat × WorkItemDetails) :=
  if (lookupId dict item_id).isSome then dict
  else
    match fetch item_id with
    | some details => dict ++ [(item_id, set_id details item_id)]
    | none => dict

/-- The dictionary built by the fetch loop: `for item_id in (source_id,
target_id): if item_id not in work_items_dict: ...` over all relations. -/
def work_items_dict (relations : List (Nat × Nat))
    (fetch : Nat → Option WorkItemDetails) : List (Nat × WorkItemDetails) :=
  relations.foldl (fun d r => insertItem fetch (insertItem fetch d r.1) r.2) []

/-- All ids occurring in the relation list (sources and targets). -/
def relation_ids : List (Nat × Nat) → List Nat
  | [] => []
  | r :: rs => r.1 :: r.2 :: relation_ids rs

/-- The `child_items` set: the loop adds every `target_id` unconditionally,
before the dictionary-membership check.  Only membership is ever queried, so
a list models the Python set. -/
def child_items (relations : List (Nat × Nat)) : List Nat :=
  relations.map (fun r => r.2)

/-- The `items` lists of all nodes, as a map from parent id to the list of
attached child ids, built by the loop
`if source_id in work_items_dict and target_id in work_items_dict:
 work_items_dict[source_id].items.append(work_items_dict[target_id])`. -/
def attach_items (dict : List (Nat × WorkItemDetails))
    (relations : List (Nat × Nat)) : Nat → List Nat :=
  relations.foldl
    (fun items r =>
      if (lookupId dict r.1).isSome && (lookupId dict r.2).isSome then
        fun p => if p = r.1 then items p ++ [r.2] else items p
      else items)
    (fun _ => [])

/-- The `type_order` dictionary of `sort_by_type`. -/
def type_order (t : String) : Option Nat :=
  if t = "Epic" then some 0
  else if t = "Feature" then some 1
  else if t = "User Story" then some 2
  else if t = "Task" then some 3
  else none

/-- The sort key: `type_order.get(item.work_item_type, 999)`. -/
def sort_by_type (item : WorkItemDetails) : Nat :=
  (type_order item.work_item_type).getD 999

/-- Sort key of a node id: the node objects being sorted live in
`work_items_dict`, so the id is dereferenced there.  Every id in a root or
child list is a dictionary key, so the `none` branch is never taken; `999`
mirrors the dictionary default of `sort_by_type`. -/
def sort_key (dict : List (Nat × WorkItemDetails)) (i : Nat) : Nat :=
  match lookupId dict i with
  | some item => sort_by_type item
  | none => 999

/-- Stable insertion of `a` into a key-sorted list: `a` is placed before the
first element it does not exceed, so elements of equal key keep their
original relative order. -/
def insert_keyed (key : Nat → Nat) (a : Nat) : List Nat → List Nat
  | [] => [a]
  | b :: bs => if key a ≤ key b then a :: b :: bs else b :: insert_keyed key a bs

/-- Stable sort by key, modelling Python's stable `list.sort(key=...)`.
The result of a stable sort is uniquely determined by the input, the key,
and stability, so any stable sort models `list.sort` exactly. -/
def sort_keyed (key : Nat → Nat) : List Nat → List Nat
  | [] => []
  | a :: as => insert_keyed key a (sort_keyed key as)

/-- The unsorted `root_items` list:
`for item_id in work_items_dict: if item_id not in child_items:
 root_items.append(work_items_dict[item_id])`, in dictionary order. -/
def collect_root_items (relations : List (Nat × Nat))
    (fetch : Nat → Option WorkItemDetails) : List Nat :=
  ((work_items_dict relations fetch).map (fun e => e.1)).filter
    (fun i => !decide (i ∈ child_items relations))

/-- A node's `items` list after `item.items.sort(key=sort_by_type)`. -/
def sorted_items (relations : List (Nat × Nat))
    (fetch : Nat → Option WorkItemDetails) (p : Nat) : List Nat :=
  sort_keyed (sort_key (work_items_dict relations fetch))
    (attach_items (work_items_dict relations fetch) relations p)

/-- The root sequence after `root_items.sort(key=sort_by_type)`. -/
def root_items (relations : List (Nat × Nat))
    (fetch : Nat → Option WorkItemDetails) : List Nat :=
  sort_keyed (sort_key (work_items_dict relations fetch))
    (collect_root_items relations fetch)

/-- A serialized record as produced by `WorkItemDetails.to_dict`: the
metadata record together with the recursively serialized `items` field. -/
inductive WorkItemRecord where
  | node : WorkItemDetails → List WorkItemRecord → WorkItemRecord

/-- The id at the head of a serialized record. -/
def record_head_id : WorkItemRecord → Nat
  | .node details _ => details.id

/-- Serialization of a list of nodes by a given node serializer, modelling
the comprehension `[child.to_dict() for child in ...]`: the whole list is
serialized only when every element is. -/
def allRecords (h : Nat → Option WorkItemRecord) : List Nat → Option (List WorkItemRecord)
  | [] => some []
  | i :: is =>
    match h i, allRecords h is with
    | some t, some ts => some (t :: ts)
    | _, _ => none

/-- Serialization of one node, `WorkItemDetails.to_dict`: the metadata of
the node plus `[child.to_dict() for child in self.items]`.  Python recurses
without bound, so the embedding takes explicit fuel; `none` models a
`RecursionError` (the recursion never returning). -/
def to_dict (dict : List (Nat × WorkItemDetails)) (g : Nat → List Nat) :
    Nat → Nat → Option WorkItemRecord
  | 0, _ => none
  | fuel + 1, i =>
    match lookupId dict i with
    | none => none
    | some details =>
      match allRecords (fun c => to_dict dict g fuel c) (g i) with
      | none => none
      | some children => some (.node details children)

/-- The whole hierarchy construction of `get_work_items_hierarchy`, from the
extracted relation list and the per-id fetch result to the serialized list
`hierarchy_dict = [item.to_dict() for item in root_items]`.  The fuel
`|work_items_dict| + 1` is enough for every acyclic instance (the parent
chains of an acyclic graph cannot be longer than the dictionary); a `none`
result models the unbounded recursion of `to_dict` on a cyclic instance. -/
def get_work_items_hierarchy (relations : List (Nat × Nat))
    (fetch : Nat → Option WorkItemDetails) : Option (List WorkItemRecord) :=
  allRecords
    (to_dict (work_items_dict relations fetch) (sorted_items relations fetch)
      ((work_items_dict relations fetch).length + 1))
    (root_items relations fetch)

mutual

/-- All node ids occurring in a serialized record, in serialization order. -/
def record_ids : WorkItemRecord → List Nat
  | .node details children => details.id :: forest_ids children

/-- All node ids occurring in a serialized forest. -/
def forest_ids : List WorkItemRecord → List Nat
  | [] => []
  | t :: ts => record_ids t ++ forest_ids ts

end

/-- Number of occurrences of the id `i` in a serialized forest. -/
def forest_count (i : Nat) (ts : List WorkItemRecord) : Nat :=
  (forest_ids ts).count i

/-- Number of occurrences of the id `i` in the serialized output (when the
serialization terminates). -/
def out_count (relations : List (Nat × Nat))
    (fetch : Nat → Option WorkItemDetails) (i : Nat) : Option Nat :=
  (get_work_items_hierarchy relations fetch).map (forest_count i)

/-- A serialized record is well-shaped with respect to a dictionary and a
child-list map when its metadata is the registered record of its own id,
its serialized children are exactly the node's child list in order, and
every child is recursively well-shaped.  Leaves (`g details.id = []`)
consequently carry an empty `items` list. -/
inductive RecordShaped (dict : List (Nat × WorkItemDetails))
    (g : Nat → List Nat) : WorkItemRecord → Prop where
  | node : ∀ (details : WorkItemDetails) (children : List WorkItemRecord),
      lookupId dict details.id = some details →
      children.map record_head_id = g details.id →
      (∀ c ∈ children, RecordShaped dict g c) →
      RecordShaped dict g (.node details children)

/-- A metadata record with only the work-item type set, standing in for a
remote fetch response of that type. -/
def typed_item (ty : String) : WorkItemDetails :=
  ⟨0, "", "", "", ty, "", "", "", "", "", "", 0, "", "", "", false, "", 0,
   "", "", false, "", "", []⟩

/-- Sample fetch: ids 1, 2, 3 are an Epic, a Feature and a Task. -/
def fetchEFT : Nat → Option WorkItemDetails := fun i =>
  if i = 1 then some (typed_item "Epic")
  else if i = 2 then some (typed_item "Feature")
  else if i = 3 then some (typed_item "Task")
  else none

/-- Sample fetch: id 1 is an Epic and id 2 a Task; every other id has no
metadata (the remote fetch fails). -/
def fetchET : Nat → Option WorkItemDetails := fun i =>
  if i = 1 then some (typed_item "Epic")
  else if i = 2 then some (typed_item "Task")
  else none

/-- Sample fetch for the sort example: parent 1 is an Epic and the children
2, 3, 4, 5 arrive typed Task, Epic, User Story and Feature. -/
def fetchSort : Nat → Option WorkItemDetails := fun i =>
  if i = 1 then some (typed_item "Epic")
  else if i = 2 then some (typed_item "Task")
  else if i = 3 then some (typed_item "Epic")
  else if i = 4 then some (typed_item "User Story")
  else if i = 5 then some (typed_item "Feature")
  else none

theorem lookupId_append (d e : List (Nat × WorkItemDetails)) (i : Nat) :
    lookupId (d ++ e) i =
      match lookupId d i with
      | some m => some m
      | none => lookupId e i := by
  induction d with
  | nil => simp [lookupId]
  | cons kv rest ih =>
    obtain ⟨k, m⟩ := kv
    by_cases h : k = i
    · simp [lookupId, h]
    · simpa [lookupId, h] using ih

theorem lookupId_insertItem (fetch : Nat → Option WorkItemDetails)
    (d : List (Nat × WorkItemDetails)) (j i : Nat) :
    lookupId (insertItem fetch d j) i =
      match lookupId d i with
      | some m => some m
      | none => if i = j then (fetch i).map (fun m => set_id m i) else none := by
  unfold insertItem
  cases hdi : lookupId d i with
  | some m =>
    by_cases hj : (lookupId d j).isSome
    · simp [hj, hdi]
    · simp only [hj, if_false, Bool.false_eq_true]
      cases hfj : fetch j with
      | none => simp [hdi]
      | some w => simp [lookupId_append, hdi]
  | none =>
    by_cases hj : (lookupId d j).isSome
    · simp only [hj, if_true]
      rw [hdi]
      by_cases hij : i = j
      · subst hij; rw [hdi] at hj; simp at hj
      · simp [hij]
    · simp only [hj, if_false, Bool.false_eq_true]
      cases hfj : fetch j with
      | none =>
        rw [hdi]
        by_cases hij : i = j
        · subst hij; simp [hfj, hdi]
        · simp [hij, hdi]
      | some w =>
        rw [lookupId_append, hdi]
        by_cases hij : i = j
        · subst hij; simp [lookupId, hfj]
        · simp [lookupId, hij, Ne.symm hij]

theorem lookupId_work_items_aux (fetch : Nat → Option WorkItemDetails) :
    ∀ (R : List (Nat × Nat)) (d : List (Nat × WorkItemDetails)) (i : Nat),
    lookupId (R.foldl (fun d r => insertItem fetch (insertItem fetch d r.1) r.2) d) i =
      match lookupId d i with
      | some m => some m
      | none =>
        if i ∈ relation_ids R then (fetch i).map (fun m => set_id m i) else none := by
  intro R
  induction R with
  | nil =>
    intro d i
    simp only [List.foldl_nil, relation_ids, List.not_mem_nil, if_false]
    cases lookupId d i <;> simp
  | cons r rs ih =>
    intro d i
    simp only [List.foldl_cons]
    rw [ih, lookupId_insertItem, lookupId_insertItem]
    cases hdi : lookupId d i with
    | some m => simp
    | none =>
      simp only [relation_ids, List.mem_cons]
      by_cases h1 : i = r.1
      · cases hfi : fetch i with
        | none => simp [h1, hfi]
        | some w => simp [h1, hfi]
      · by_cases h2 : i = r.2
        · have h21 : ¬ (r.2 = r.1) := by rw [← h2]; exact h1
          cases hfi : fetch i with
          | none => simp [h1, h2, hfi]
          | some w => simp [h1, h2, hfi, h21]
        · simp [h1, h2]

theorem lookupId_work_items (R : List (Nat × Nat))
    (fetch : Nat → Option WorkItemDetails) (i : Nat) :
    lookupId (work_items_dict R fetch) i =
      if i ∈ relation_ids R then (fetch i).map (fun m => set_id m i) else none := by
  unfold work_items_dict
  rw [lookupId_work_items_aux]
  simp [lookupId]

theorem work_items_isSome_iff (R : List (Nat × Nat))
    (fetch : Nat → Option WorkItemDetails) (i : Nat) :
    (lookupId (work_items_dict R fetch) i).isSome
      ↔ i ∈ relation_ids R ∧ (fetch i).isSome := by
  rw [lookupId_work_items]
  by_cases h : i ∈ relation_ids R
  · cases hf : fetch i <;> simp [h, hf]
  · simp [h]

theorem work_items_id_eq (R : List (Nat × Nat))
    (fetch : Nat → Option WorkItemDetails) (i : Nat) (m : WorkItemDetails)
    (h : lookupId (work_items_dict R fetch) i = some m) : m.id = i := by
  rw [lookupId_work_items] at h
  by_cases hm : i ∈ relation_ids R
  · rw [if_pos hm] at h
    cases hf : fetch i with
    | none => rw [hf] at h; simp at h
    | some w =>
      rw [hf] at h
      have hm2 : set_id w i = m := by simpa using h
      rw [← hm2]
      rfl
  · rw [if_neg hm] at h; simp at h

theorem mem_keys_iff_isSome (d : List (Nat × WorkItemDetails)) (i : Nat) :
    i ∈ d.map (fun e => e.1) ↔ (lookupId d i).isSome := by
  induction d with
  | nil => simp [lookupId]
  | cons kv rest ih =>
    obtain ⟨k, m⟩ := kv
    by_cases h : k = i
    · simp [lookupId, h]
    · simpa [lookupId, h, Ne.symm h] using ih

theorem mem_child_items (R : List (Nat × Nat)) (i : Nat) :
    i ∈ child_items R ↔ ∃ r ∈ R, r.2 = i := by
  simp [child_items]

theorem attach_items_aux (d : List (Nat × WorkItemDetails)) (R : List (Nat × Nat)) :
    ∀ (acc : Nat → List Nat) (p : Nat),
    R.foldl
      (fun items r =>
        if (lookupId d r.1).isSome && (lookupId d r.2).isSome then
          fun p => if p = r.1 then items p ++ [r.2] else items p
        else items)
      acc p
      = acc p ++ (R.filter (fun r =>
          p == r.1 && (lookupId d r.1).isSome && (lookupId d r.2).isSome)).map
          (fun r => r.2) := by
  induction R with
  | nil => intro acc p; simp
  | cons r rs ih =>
    intro acc p
    simp only [List.foldl_cons, List.filter_cons]
    by_cases hg : ((lookupId d r.1).isSome && (lookupId d r.2).isSome) = true
    · rw [if_pos hg, ih]
      by_cases hp : p = r.1
      · have : (p == r.1 && (lookupId d r.1).isSome && (lookupId d r.2).isSome) = true := by
          simp only [Bool.and_eq_true] at hg ⊢
          exact ⟨⟨by simpa using hp, hg.1⟩, hg.2⟩
        rw [if_pos this]
        simp [hp, List.append_assoc]
      · have : (p == r.1 && (lookupId d r.1).isSome && (lookupId d r.2).isSome) = false := by
          simp only [Bool.and_eq_false_iff]
          left; left; simpa using hp
        rw [this]
        simp [hp]
    · rw [if_neg hg, ih]
      have : (p == r.1 && (lookupId d r.1).isSome && (lookupId d r.2).isSome) = false := by
        simp only [Bool.and_eq_true, not_and] at hg
        simp only [Bool.and_eq_false_iff]
        by_cases ha : (lookupId d r.1).isSome = true
        · right; simpa using hg ha
        · left; right; simpa using ha
      rw [this]
      simp

theorem attach_items_eq (d : List (Nat × WorkItemDetails)) (R : List (Nat × Nat)) (p : Nat) :
    attach_items d R p
      = (R.filter (fun r =>
          p == r.1 && (lookupId d r.1).isSome && (lookupId d r.2).isSome)).map
          (fun r => r.2) := by
  unfold attach_items
  rw [attach_items_aux]
  simp

theorem mem_attach_items (d : List (Nat × WorkItemDetails)) (R : List (Nat × Nat)) (p c : Nat) :
    c ∈ attach_items d R p
      ↔ (p, c) ∈ R ∧ (lookupId d p).isSome ∧ (lookupId d c).isSome := by
  rw [attach_items_eq]
  simp only [List.mem_map, List.mem_filter, Bool.and_eq_true, beq_iff_eq]
  constructor
  · rintro ⟨r, ⟨hrR, ⟨hpr, h1⟩, h2⟩, hr2⟩
    have hr : r = (p, c) := by
      cases r with
      | mk a b => simp_all
    subst hr
    exact ⟨hrR, h1, h2⟩
  · rintro ⟨hmem, h1, h2⟩
    exact ⟨(p, c), ⟨hmem, ⟨rfl, h1⟩, h2⟩, rfl⟩

theorem insert_keyed_perm (key : Nat → Nat) (a : Nat) (l : List Nat) :
    (insert_keyed key a l).Perm (a :: l) := by
  induction l with
  | nil => simp [insert_keyed]
  | cons b bs ih =>
    simp only [insert_keyed]
    split
    · exact List.Perm.refl _
    · exact (List.Perm.cons b ih).trans (List.Perm.swap a b bs)

theorem sort_keyed_perm (key : Nat → Nat) (l : List Nat) :
    (sort_keyed key l).Perm l := by
  induction l with
  | nil => simp [sort_keyed]
  | cons a as ih =>
    exact (insert_keyed_perm key a (sort_keyed key as)).trans (ih.cons a)

theorem insert_keyed_pairwise (key : Nat → Nat) (a : Nat) (l : List Nat)
    (h : List.Pairwise (fun x y => key x ≤ key y) l) :
    List.Pairwise (fun x y => key x ≤ key y) (insert_keyed key a l) := by
  induction l with
  | nil => simp [insert_keyed]
  | cons b bs ih =>
    rcases List.pairwise_cons.1 h with ⟨hb, hbs⟩
    simp only [insert_keyed]
    by_cases hab : key a ≤ key b
    · rw [if_pos hab]
      refine List.pairwise_cons.2 ⟨?_, h⟩
      intro x hx
      rcases List.mem_cons.1 hx with hxb | hxbs
      · subst hxb; exact hab
      · exact le_trans hab (hb x hxbs)
    · rw [if_neg hab]
      refine List.pairwise_cons.2 ⟨?_, ih hbs⟩
      intro x hx
      rcases List.mem_cons.1 ((insert_keyed_perm key a bs).mem_iff.1 hx) with hxa | hxbs
      · subst hxa; omega
      · exact hb x hxbs

theorem sort_keyed_pairwise (key : Nat → Nat) (l : List Nat) :
    List.Pairwise (fun x y => key x ≤ key y) (sort_keyed key l) := by
  induction l with
  | nil => simp [sort_keyed]
  | cons a as ih => exact insert_keyed_pairwise key a _ ih

theorem insert_keyed_filter (key : Nat → Nat) (a : Nat) (l : List Nat) (k : Nat) :
    (insert_keyed key a l).filter (fun x => key x == k)
      = if key a = k then a :: l.filter (fun x => key x == k)
        else l.filter (fun x => key x == k) := by
  induction l with
  | nil => by_cases h : key a = k <;> simp [insert_keyed, h]
  | cons b bs ih =>
    simp only [insert_keyed]
    by_cases hab : key a ≤ key b
    · rw [if_pos hab]
      by_cases h : key a = k <;> simp [h, List.filter_cons]
    · rw [if_neg hab]
      by_cases h : key a = k
      · have hbk : ¬ key b = k := by omega
        simp [List.filter_cons, hbk, ih, h]
      · simp [List.filter_cons, ih, h]

theorem sort_keyed_filter (key : Nat → Nat) (l : List Nat) (k : Nat) :
    (sort_keyed key l).filter (fun x => key x == k)
      = l.filter (fun x => key x == k) := by
  induction l with
  | nil => simp [sort_keyed]
  | cons a as ih =>
    simp only [sort_keyed]
    rw [insert_keyed_filter]
    by_cases h : key a = k <;> simp [List.filter_cons, h, ih]

theorem mem_sorted_items (R : List (Nat × Nat)) (fetch : Nat → Option WorkItemDetails)
    (p c : Nat) :
    c ∈ sorted_items R fetch p
      ↔ (p, c) ∈ R ∧ (lookupId (work_items_dict R fetch) p).isSome
          ∧ (lookupId (work_items_dict R fetch) c).isSome := by
  unfold sorted_items
  rw [(sort_keyed_perm _ _).mem_iff]
  exact mem_attach_items _ R p c

theorem mem_root_items (R : List (Nat × Nat)) (fetch : Nat → Option WorkItemDetails)
    (i : Nat) :
    i ∈ root_items R fetch
      ↔ (lookupId (work_items_dict R fetch) i).isSome ∧ i ∉ child_items R := by
  unfold root_items collect_root_items
  rw [(sort_keyed_perm _ _).mem_iff]
  rw [List.mem_filter]
  rw [mem_keys_iff_isSome]
  simp

theorem allRecords_isSome (h : Nat → Option WorkItemRecord) (l : List Nat)
    (hall : ∀ c ∈ l, (h c).isSome) : (allRecords h l).isSome := by
  induction l with
  | nil => simp [allRecords]
  | cons i is ih =>
    cases hi : h i with
    | none =>
      have := hall i (List.mem_cons_self i is)
      rw [hi] at this
      simp at this
    | some t =>
      cases hrest : allRecords h is with
      | none =>
        have := ih (fun c hc => hall c (List.mem_cons_of_mem i hc))
        rw [hrest] at this
        simp at this
      | some ts => simp [allRecords, hi, hrest]

theorem allRecords_mem {h : Nat → Option WorkItemRecord} :
    ∀ {l : List Nat} {ts : List WorkItemRecord}, allRecords h l = some ts →
      ∀ t ∈ ts, ∃ c ∈ l, h c = some t := by
  intro l
  induction l with
  | nil =>
    intro ts hs t ht
    simp [allRecords] at hs
    subst hs
    simp at ht
  | cons i is ih =>
    intro ts hs t ht
    cases hi : h i with
    | none => simp [allRecords, hi] at hs
    | some u =>
      cases hrest : allRecords h is with
      | none => simp [allRecords, hi, hrest] at hs
      | some us =>
        simp only [allRecords, hi, hrest] at hs
        cases hs
        rcases List.mem_cons.1 ht with hh | hh
        · exact ⟨i, List.mem_cons_self i is, by rw [hi, hh]⟩
        · rcases ih hrest t hh with ⟨c, hc, hct⟩
          exact ⟨c, List.mem_cons_of_mem i hc, hct⟩

theorem allRecords_map_head {h : Nat → Option WorkItemRecord}
    (hhead : ∀ c t, h c = some t → record_head_id t = c) :
    ∀ {l : List Nat} {ts : List WorkItemRecord}, allRecords h l = some ts →
      ts.map record_head_id = l := by
  intro l
  induction l with
  | nil =>
    intro ts hs
    simp [allRecords] at hs
    subst hs
    rfl
  | cons i is ih =>
    intro ts hs
    cases hi : h i with
    | none => simp [allRecords, hi] at hs
    | some u =>
      cases hrest : allRecords h is with
      | none => simp [allRecords, hi, hrest] at hs
      | some us =>
        simp only [allRecords, hi, hrest] at hs
        cases hs
        simp only [List.map_cons]
        rw [hhead i u hi, ih hrest]

theorem to_dict_shaped (d : List (Nat × WorkItemDetails)) (g : Nat → List Nat)
    (hid : ∀ i m, lookupId d i = some m → m.id = i) :
    ∀ (fuel i : Nat) (t : WorkItemRecord), to_dict d g fuel i = some t →
      RecordShaped d g t ∧ record_head_id t = i := by
  intro fuel
  induction fuel with
  | zero => intro i t h; simp [to_dict] at h
  | succ fuel ih =>
    intro i t h
    simp only [to_dict] at h
    cases hd : lookupId d i with
    | none => rw [hd] at h; simp at h
    | some details =>
      rw [hd] at h
      cases hc : allRecords (fun c => to_dict d g fuel c) (g i) with
      | none => rw [hc] at h; simp at h
      | some children =>
        rw [hc] at h
        have ht : WorkItemRecord.node details children = t := by
          simpa using h
        have hdi : details.id = i := hid i details hd
        subst ht
        refine ⟨RecordShaped.node details children ?_ ?_ ?_, ?_⟩
        · rw [hdi]; exact hd
        · rw [hdi]
          exact allRecords_map_head (fun c u hu => (ih c u hu).2) hc
        · intro c hcmem
          rcases allRecords_mem hc c hcmem with ⟨cid, _, hct⟩
          exact (ih cid c hct).1
        · simpa [record_head_id] using hdi

theorem mem_forest_ids (ts : List WorkItemRecord) (j : Nat) :
    j ∈ forest_ids ts ↔ ∃ t ∈ ts, j ∈ record_ids t := by
  induction ts with
  | nil => simp [forest_ids]
  | cons t rest ih => simp [forest_ids, ih]

theorem shaped_ids (d : List (Nat × WorkItemDetails)) (g : Nat → List Nat) :
    ∀ (t : WorkItemRecord), RecordShaped d g t →
      ∀ j ∈ record_ids t, j = record_head_id t ∨ ∃ q, j ∈ g q := by
  intro t hs
  induction hs with
  | node details children hlook hmap hch ih =>
    intro j hj
    simp only [record_ids, List.mem_cons] at hj
    rcases hj with hj | hj
    · left; simpa [record_head_id] using hj
    · right
      rcases (mem_forest_ids children j).1 hj with ⟨c, hcmem, hcj⟩
      rcases ih c hcmem j hcj with hh | hh
      · refine ⟨details.id, ?_⟩
        rw [← hmap]
        rw [hh]
        exact List.mem_map_of_mem record_head_id hcmem
      · exact hh

theorem forest_count_eq_zero (ts : List WorkItemRecord) (j : Nat)
    (h : j ∉ forest_ids ts) : forest_count j ts = 0 := by
  unfold forest_count
  exact List.count_eq_zero.2 (by simpa using h)

theorem to_dict_isSome_of_rank (d : List (Nat × WorkItemDetails)) (g : Nat → List Nat)
    (rank : Nat → Nat)
    (hedge : ∀ p c, c ∈ g p → (lookupId d c).isSome ∧ rank c < rank p) :
    ∀ (fuel i : Nat), (lookupId d i).isSome → rank i < fuel →
      (to_dict d g fuel i).isSome := by
  intro fuel
  induction fuel with
  | zero => intro i _ hr; omega
  | succ fuel ih =>
    intro i hi hr
    simp only [to_dict]
    cases hd : lookupId d i with
    | none => rw [hd] at hi; simp at hi
    | some details =>
      have hall : (allRecords (fun c => to_dict d g fuel c) (g i)).isSome := by
        refine allRecords_isSome _ _ (fun c hc => ?_)
        have h2 := hedge i c hc
        exact ih c h2.1 (by omega)
      cases hc : allRecords (fun c => to_dict d g fuel c) (g i) with
      | none => rw [hc] at hall; simp at hall
      | some children => simp

theorem mem_relation_ids_of_mem {R : List (Nat × Nat)} {r : Nat × Nat} (h : r ∈ R) :
    r.1 ∈ relation_ids R ∧ r.2 ∈ relation_ids R := by
  induction R with
  | nil => simp at h
  | cons s rs ih =>
    rcases List.mem_cons.1 h with hh | hh
    · subst hh; simp [relation_ids]
    · have := ih hh
      simp [relation_ids, this.1, this.2]

theorem count_attach_items (d : List (Nat × WorkItemDetails)) (R : List (Nat × Nat))
    (p c : Nat) (hp : (lookupId d p).isSome) (hc : (lookupId d c).isSome) :
    List.count c (attach_items d R p) = List.count (p, c) R := by
  rw [attach_items_eq]
  induction R with
  | nil => simp
  | cons r rs ih =>
    rw [List.filter_cons]
    by_cases hpred : (p == r.1 && (lookupId d r.1).isSome && (lookupId d r.2).isSome) = true
    · rw [if_pos hpred]
      have hr1 : r.1 = p := by
        simp only [Bool.and_eq_true, beq_iff_eq] at hpred
        exact hpred.1.1.symm
      by_cases hc2 : r.2 = c
      · have hrpc : r = (p, c) := by
          cases r; simp_all
        simp [List.count_cons, hrpc, ih]
      · have hrpc : ¬ (r = (p, c)) := by
          intro hh; subst hh; simp at hc2
        simp [List.count_cons, hrpc, hc2, ih]
    · rw [if_neg hpred]
      have hrpc : ¬ (r = (p, c)) := by
        intro hh
        subst hh
        simp [hp, hc] at hpred
      simp [List.count_cons, hrpc, ih]

theorem hierarchy_isSome (R : List (Nat × Nat)) (fetch : Nat → Option WorkItemDetails)
    (rank : Nat → Nat)
    (hrank : ∀ p c, c ∈ sorted_items R fetch p → rank c < rank p)
    (hbound : ∀ i, (lookupId (work_items_dict R fetch) i).isSome →
        rank i ≤ (work_items_dict R fetch).length) :
    ∃ ts, get_work_items_hierarchy R fetch = some ts := by
  unfold get_work_items_hierarchy
  have hs : (allRecords
      (to_dict (work_items_dict R fetch) (sorted_items R fetch)
        ((work_items_dict R fetch).length + 1))
      (root_items R fetch)).isSome := by
    refine allRecords_isSome _ _ (fun i hi => ?_)
    have hroot := (mem_root_items R fetch i).1 hi
    refine to_dict_isSome_of_rank _ _ rank (fun p c hc => ?_) _ i hroot.1 ?_
    · exact ⟨((mem_sorted_items R fetch p c).1 hc).2.2, hrank p c hc⟩
    · have := hbound i hroot.1
      omega
  exact Option.isSome_iff_exists.1 hs

/-- A relation list whose attached parent-child graph is cyclic (2 → 3 → 2)
with the cycle reachable from the only root 1: `to_dict` then recurses
forever in the source (a Python `RecursionError`). -/
def cyclic_relations : List (Nat × Nat) := [(1, 2), (2, 3), (3, 2)]

theorem cyclic_to_dict_none : ∀ fuel,
    to_dict (work_items_dict cyclic_relations fetchEFT)
      (sorted_items cyclic_relations fetchEFT) fuel 2 = none
    ∧ to_dict (work_items_dict cyclic_relations fetchEFT)
      (sorted_items cyclic_relations fetchEFT) fuel 3 = none := by
  intro fuel
  induction fuel with
  | zero => exact ⟨rfl, rfl⟩
  | succ n ih =>
    have hg2 : sorted_items cyclic_relations fetchEFT 2 = [3] := by decide
    have hg3 : sorted_items cyclic_relations fetchEFT 3 = [2] := by decide
    constructor
    · simp only [to_dict, hg2]
      cases hl : lookupId (work_items_dict cyclic_relations fetchEFT) 2 with
      | none => rfl
      | some details =>
        simp only [allRecords, ih.2]
    · simp only [to_dict, hg3]
      cases hl : lookupId (work_items_dict cyclic_relations fetchEFT) 3 with
      | none => rfl
      | some details =>
        simp only [allRecords, ih.1]

theorem cyclic_root_none : ∀ fuel,
    to_dict (work_items_dict cyclic_relations fetchEFT)
      (sorted_items cyclic_relations fetchEFT) fuel 1 = none := by
  intro fuel
  cases fuel with
  | zero => rfl
  | succ n =>
    have hg1 : sorted_items cyclic_relations fetchEFT 1 = [2] := by decide
    simp only [to_dict, hg1]
    cases hl : lookupId (work_items_dict cyclic_relations fetchEFT) 1 with
    | none => rfl
    | some details =>
      simp only [allRecords, (cyclic_to_dict_none n).1]

/-- C1 counterexample: with relations [(1,3),(2,3)] and metadata for 1, 2
and 3, the target id 3 has two parents present in the metadata map and the
serialized output contains it twice (once under each parent), not exactly
once as the claim states. -/
theorem c1_counterexample :
    out_count [(1, 3), (2, 3)] fetchEFT 3 = some 2
    ∧ out_count [(1, 3), (2, 3)] fetchEFT 3 ≠ some 1 := by
  constructor
  · decide
  · decide

/-- C1 (amended): every id appearing in R as a target_id, with both it and
its parent present in the metadata map, is attached in the parent's child
list and is never emitted as a top-level root; it is attached once per
referencing tuple and possibly under several parents, so the single claim
of exactly one occurrence fails (see the counterexample). -/
theorem c1_target_under_parent_never_root (R : List (Nat × Nat))
    (fetch : Nat → Option WorkItemDetails) (p c : Nat)
    (hmem : (p, c) ∈ R) (hp : (fetch p).isSome) (hc : (fetch c).isSome) :
    c ∈ sorted_items R fetch p ∧ c ∉ root_items R fetch := by
  have hids := mem_relation_ids_of_mem hmem
  have hpd : (lookupId (work_items_dict R fetch) p).isSome :=
    (work_items_isSome_iff R fetch p).2 ⟨hids.1, hp⟩
  have hcd : (lookupId (work_items_dict R fetch) c).isSome :=
    (work_items_isSome_iff R fetch c).2 ⟨hids.2, hc⟩
  constructor
  · exact (mem_sorted_items R fetch p c).2 ⟨hmem, hpd, hcd⟩
  · intro hroot
    exact ((mem_root_items R fetch c).1 hroot).2
      ((mem_child_items R c).2 ⟨(p, c), hmem, rfl⟩)

/-- C1 witness: in relations [(1,2)] with metadata for both ids, id 2 is
attached under 1 and is not a root. -/
theorem c1_witness :
    2 ∈ sorted_items [(1, 2)] fetchET 1 ∧ 2 ∉ root_items [(1, 2)] fetchET :=
  c1_target_under_parent_never_root [(1, 2)] fetchET 1 2 (by decide) (by decide) (by decide)

/-- C2 counterexample: the duplicated tuple (1,2) results in id 2 appearing
twice in the child list of 1 — the code has no "already attached" check. -/
theorem c2_counterexample :
    List.count 2 (sorted_items [(1, 2), (1, 2)] fetchET 1) = 2
    ∧ List.count 2 (sorted_items [(1, 2), (1, 2)] fetchET 1) ≠ 1 := by
  constructor
  · decide
  · decide

/-- C2 (amended): a (parent, child) tuple whose two ids are present in the
metadata map is attached once per occurrence in R: the child occurs in the
parent's child list exactly as many times as the tuple occurs in R (and
never when either id is missing), so a duplicated tuple does duplicate the
child under the same parent. -/
theorem c2_attach_count (R : List (Nat × Nat))
    (fetch : Nat → Option WorkItemDetails) (p c : Nat) :
    List.count c (sorted_items R fetch p)
      = if (lookupId (work_items_dict R fetch) p).isSome
            ∧ (lookupId (work_items_dict R fetch) c).isSome
        then List.count (p, c) R else 0 := by
  unfold sorted_items
  rw [(sort_keyed_perm _ _).count_eq]
  by_cases h : (lookupId (work_items_dict R fetch) p).isSome
      ∧ (lookupId (work_items_dict R fetch) c).isSome
  · rw [if_pos h]
    exact count_attach_items _ R p c h.1 h.2
  · rw [if_neg h]
    refine List.count_eq_zero.2 ?_
    intro hmem
    have hm := (mem_attach_items _ R p c).1 hmem
    exact h ⟨hm.2.1, hm.2.2⟩

/-- C3: the roots of the built output are exactly the dictionary ids never
occurring as a target_id in R; an id with metadata occurring only as a
source_id is a root, and every declared child with metadata is nested in
its child list. -/
theorem c3_roots (R : List (Nat × Nat)) (fetch : Nat → Option WorkItemDetails) :
    (∀ i, i ∈ root_items R fetch
      ↔ (lookupId (work_items_dict R fetch) i).isSome ∧ ∀ r ∈ R, r.2 ≠ i)
    ∧ ∀ i, (fetch i).isSome → (∀ r ∈ R, r.2 ≠ i) → (∃ r ∈ R, r.1 = i) →
        i ∈ root_items R fetch
        ∧ ∀ c, (i, c) ∈ R → (fetch c).isSome → c ∈ sorted_items R fetch i := by
  constructor
  · intro i
    rw [mem_root_items]
    constructor
    · rintro ⟨hs, hnc⟩
      exact ⟨hs, fun r hr h2 => hnc ((mem_child_items R i).2 ⟨r, hr, h2⟩)⟩
    · rintro ⟨hs, hnt⟩
      refine ⟨hs, fun hin => ?_⟩
      rcases (mem_child_items R i).1 hin with ⟨r, hr, h2⟩
      exact hnt r hr h2
  · intro i hfi hnt hsrc
    have hii : i ∈ relation_ids R := by
      rcases hsrc with ⟨r, hr, hr1⟩
      exact hr1 ▸ (mem_relation_ids_of_mem hr).1
    have hid : (lookupId (work_items_dict R fetch) i).isSome :=
      (work_items_isSome_iff R fetch i).2 ⟨hii, hfi⟩
    constructor
    · rw [mem_root_items]
      refine ⟨hid, fun hin => ?_⟩
      rcases (mem_child_items R i).1 hin with ⟨r, hr, hr2⟩
      exact hnt r hr hr2
    · intro c hic hfc
      have hcd : (lookupId (work_items_dict R fetch) c).isSome :=
        (work_items_isSome_iff R fetch c).2 ⟨(mem_relation_ids_of_mem hic).2, hfc⟩
      exact (mem_sorted_items R fetch i c).2 ⟨hic, hid, hcd⟩

/-- C3 witness: in relations [(1,2)] with metadata for both ids, id 1
occurs only as a source, is a root, and its declared child 2 is nested
beneath it. -/
theorem c3_witness :
    1 ∈ root_items [(1, 2)] fetchET ∧ 2 ∈ sorted_items [(1, 2)] fetchET 1 := by
  have h := (c3_roots [(1, 2)] fetchET).2 1 (by decide) (by decide) (by decide)
  exact ⟨h.1, h.2 2 (by decide) (by decide)⟩

/-- C4: the type-rank table is Epic=0, Feature=1, User Story=2, Task=3 and
999 otherwise; the root sequence and every child list are a permutation of
their arrival-ordered versions, sorted by the rank of the node, and stably
so: for every rank value the sublist of nodes of that rank is unchanged,
so ties keep relation-arrival order.  Children arriving typed
[Task, Epic, User Story, Feature] are output as
[Epic, Feature, User Story, Task]. -/
theorem c4_stable_type_sort :
    (type_order "Epic" = some 0 ∧ type_order "Feature" = some 1
      ∧ type_order "User Story" = some 2 ∧ type_order "Task" = some 3
      ∧ ∀ item : WorkItemDetails,
          item.work_item_type ∉ (["Epic", "Feature", "User Story", "Task"] : List String) →
          sort_by_type item = 999)
    ∧ (∀ (R : List (Nat × Nat)) (fetch : Nat → Option WorkItemDetails),
        (root_items R fetch).Perm (collect_root_items R fetch)
        ∧ List.Pairwise
            (fun a b => sort_key (work_items_dict R fetch) a
              ≤ sort_key (work_items_dict R fetch) b) (root_items R fetch)
        ∧ ∀ k, (root_items R fetch).filter
              (fun i => sort_key (work_items_dict R fetch) i == k)
            = (collect_root_items R fetch).filter
              (fun i => sort_key (work_items_dict R fetch) i == k))
    ∧ (∀ (R : List (Nat × Nat)) (fetch : Nat → Option WorkItemDetails) (p : Nat),
        (sorted_items R fetch p).Perm (attach_items (work_items_dict R fetch) R p)
        ∧ List.Pairwise
            (fun a b => sort_key (work_items_dict R fetch) a
              ≤ sort_key (work_items_dict R fetch) b) (sorted_items R fetch p)
        ∧ ∀ k, (sorted_items R fetch p).filter
              (fun i => sort_key (work_items_dict R fetch) i == k)
            = (attach_items (work_items_dict R fetch) R p).filter
              (fun i => sort_key (work_items_dict R fetch) i == k))
    ∧ attach_items (work_items_dict [(1, 2), (1, 3), (1, 4), (1, 5)] fetchSort)
        [(1, 2), (1, 3), (1, 4), (1, 5)] 1 = [2, 3, 4, 5]
    ∧ sorted_items [(1, 2), (1, 3), (1, 4), (1, 5)] fetchSort 1 = [3, 5, 4, 2] := by
  refine ⟨⟨rfl, rfl, rfl, rfl, ?_⟩, ?_, ?_, by decide, by decide⟩
  · intro item hmem
    simp only [List.mem_cons, List.not_mem_nil, or_false, not_or] at hmem
    obtain ⟨h1, h2, h3, h4⟩ := hmem
    simp [sort_by_type, type_order, h1, h2, h3, h4]
  · intro R fetch
    unfold root_items
    exact ⟨sort_keyed_perm _ _, sort_keyed_pairwise _ _, fun k => sort_keyed_filter _ _ k⟩
  · intro R fetch p
    unfold sorted_items
    exact ⟨sort_keyed_perm _ _, sort_keyed_pairwise _ _, fun k => sort_keyed_filter _ _ k⟩

/-- C4 witness: the default rank on an unknown type, and stability of the
concrete root sequence of a sample build. -/
theorem c4_witness :
    sort_by_type (typed_item "Bug") = 999
    ∧ (root_items [(1, 2)] fetchET).Perm (collect_root_items [(1, 2)] fetchET) :=
  ⟨c4_stable_type_sort.1.2.2.2.2 (typed_item "Bug") (by decide),
   (c4_stable_type_sort.2.1 [(1, 2)] fetchET).1⟩

/-- C5: only ids occurring in some relation tuple are ever visited: an id
absent from every tuple of R appears nowhere in the serialized output, and
with an empty relation list the output is the empty sequence whatever the
metadata map holds. -/
theorem c5_only_relation_ids :
    (∀ (R : List (Nat × Nat)) (fetch : Nat → Option WorkItemDetails)
        (i : Nat) (ts : List WorkItemRecord),
      get_work_items_hierarchy R fetch = some ts →
      i ∉ relation_ids R → forest_count i ts = 0)
    ∧ ∀ fetch : Nat → Option WorkItemDetails,
        get_work_items_hierarchy [] fetch = some [] := by
  constructor
  · intro R fetch i ts hts hnot
    refine forest_count_eq_zero ts i (fun hmem => ?_)
    rcases (mem_forest_ids ts i).1 hmem with ⟨t, htmem, hit⟩
    rcases allRecords_mem hts t htmem with ⟨rt, hrtmem, hrt⟩
    have hsh := to_dict_shaped (work_items_dict R fetch) (sorted_items R fetch)
      (fun j m h => work_items_id_eq R fetch j m h) _ _ _ hrt
    rcases shaped_ids _ _ t hsh.1 i hit with hh | hh
    · have hirt : i = rt := by rw [hh, hsh.2]
      subst hirt
      have hr := (mem_root_items R fetch i).1 hrtmem
      exact hnot ((work_items_isSome_iff R fetch i).1 hr.1).1
    · rcases hh with ⟨q, hq⟩
      have := (mem_sorted_items R fetch q i).1 hq
      exact hnot ((work_items_isSome_iff R fetch i).1 this.2.2).1
  · intro fetch
    rfl

/-- C5 witness: id 7 has metadata under neither fetch but appears in no
tuple of [(1,2)], so it occurs zero times in the serialized output; the
empty relation list yields the empty output even though fetchET knows
ids 1 and 2. -/
theorem c5_witness :
    forest_count 7
      [WorkItemRecord.node (set_id (typed_item "Epic") 1)
        [WorkItemRecord.node (set_id (typed_item "Task") 2) []]] = 0
    ∧ get_work_items_hierarchy [] fetchET = some [] :=
  ⟨c5_only_relation_ids.1 [(1, 2)] fetchET 7 _ rfl (by decide),
   c5_only_relation_ids.2 fetchET⟩

/-- C6: the build phase never fails: a tuple whose child id has no metadata
contributes no attachment anywhere, a parent id with no metadata gets an
empty child list, and the concrete scenario R = [(1,2),(1,99)] with id 99
absent from the metadata map still serializes successfully with the tuple
(1,99) skipped. -/
theorem c6_missing_ids_skipped :
    (∀ (R : List (Nat × Nat)) (fetch : Nat → Option WorkItemDetails) (p c : Nat),
      (p, c) ∈ R → fetch c = none → ∀ q, c ∉ sorted_items R fetch q)
    ∧ (∀ (R : List (Nat × Nat)) (fetch : Nat → Option WorkItemDetails) (p : Nat),
        fetch p = none → sorted_items R fetch p = [])
    ∧ (get_work_items_hierarchy [(1, 2), (1, 99)] fetchET).isSome = true
    ∧ sorted_items [(1, 2), (1, 99)] fetchET 1 = [2] := by
  refine ⟨?_, ?_, by decide, by decide⟩
  · intro R fetch p c _ hcn q hq
    have h := (mem_sorted_items R fetch q c).1 hq
    have hs := (work_items_isSome_iff R fetch c).1 h.2.2
    rw [hcn] at hs
    simp at hs
  · intro R fetch p hpn
    unfold sorted_items
    have hat : attach_items (work_items_dict R fetch) R p = [] := by
      rw [attach_items_eq]
      have hfil : (R.filter (fun r =>
          p == r.1 && (lookupId (work_items_dict R fetch) r.1).isSome
            && (lookupId (work_items_dict R fetch) r.2).isSome)) = [] := by
        refine List.filter_eq_nil_iff.2 (fun r _ => ?_)
        intro hpred
        simp only [Bool.and_eq_true, beq_iff_eq] at hpred
        have hr1 : r.1 = p := hpred.1.1.symm
        have := hpred.1.2
        rw [hr1] at this
        have := (work_items_isSome_iff R fetch p).1 this
        rw [hpn] at this
        simp at this
      rw [hfil]
      rfl
    rw [hat]
    rfl

/-- C6 witness: the tuple (1,99) has no metadata for 99, so 99 is attached
nowhere; a parent 99 without metadata has an empty child list. -/
theorem c6_witness :
    99 ∉ sorted_items [(1, 99)] fetchET 1
    ∧ sorted_items [(99, 2)] fetchET 99 = [] :=
  ⟨c6_missing_ids_skipped.1 [(1, 99)] fetchET 1 99 (by decide) (by rfl) 1,
   c6_missing_ids_skipped.2.1 [(99, 2)] fetchET 99 (by rfl)⟩

/-- C7: every record of the serialized output is shaped as the registered
metadata record of its id plus a recursive children field that holds, in
order, exactly the serializations of the node's child list, recursively of
the same shape (so leaves carry an empty list). -/
theorem c7_record_shape (R : List (Nat × Nat)) (fetch : Nat → Option WorkItemDetails)
    (ts : List WorkItemRecord) (hts : get_work_items_hierarchy R fetch = some ts) :
    ∀ t ∈ ts, RecordShaped (work_items_dict R fetch) (sorted_items R fetch) t := by
  intro t ht
  rcases allRecords_mem hts t ht with ⟨rt, _, hrt⟩
  exact (to_dict_shaped (work_items_dict R fetch) (sorted_items R fetch)
    (fun j m h => work_items_id_eq R fetch j m h) _ _ _ hrt).1

/-- C7 witness: the concrete output record of the build over [(1,2)] is
well-shaped. -/
theorem c7_witness :
    RecordShaped (work_items_dict [(1, 2)] fetchET) (sorted_items [(1, 2)] fetchET)
      (WorkItemRecord.node (set_id (typed_item "Epic") 1)
        [WorkItemRecord.node (set_id (typed_item "Task") 2) []]) :=
  c7_record_shape [(1, 2)] fetchET _ rfl _ (List.mem_singleton.2 rfl)

/-- C8: the build is deterministic and, being a pure function of the
relation list and the fetch results, has no side effects: identical inputs
yield identical (structurally equal) outputs. -/
theorem c8_deterministic (R₁ R₂ : List (Nat × Nat))
    (f₁ f₂ : Nat → Option WorkItemDetails)
    (hR : R₁ = R₂) (hf : ∀ i, f₁ i = f₂ i) :
    get_work_items_hierarchy R₁ f₁ = get_work_items_hierarchy R₂ f₂ := by
  subst hR
  rw [funext hf]

/-- C8 witness: a concrete pair of identical calls. -/
theorem c8_witness :
    get_work_items_hierarchy [(1, 2)] fetchET = get_work_items_hierarchy [(1, 2)] fetchET :=
  c8_deterministic [(1, 2)] [(1, 2)] fetchET fetchET rfl (fun _ => rfl)

/-- C9 counterexample: in R = [(9,2),(1,2)] with metadata for 1 and 2 but
not 9, the tuple (9,2) has a child with metadata and a parent without, yet
id 2 still appears in the output (attached under 1 by the other tuple),
refuting the claim that such a child appears nowhere. -/
theorem c9_counterexample :
    out_count [(9, 2), (1, 2)] fetchET 2 = some 1
    ∧ out_count [(9, 2), (1, 2)] fetchET 2 ≠ some 0 := by
  constructor
  · decide
  · decide

/-- C9 (amended): a tuple (p,c) whose parent has no metadata still marks c
as non-root (classification precedes the membership check), so c is never a
top-level root; when additionally every tuple of R targeting c has a parent
without metadata, c appears nowhere in the output: in no child list and
zero times in the serialized forest. -/
theorem c9_orphan_target (R : List (Nat × Nat))
    (fetch : Nat → Option WorkItemDetails) (p c : Nat)
    (hmem : (p, c) ∈ R) (_hpn : fetch p = none) (_hcs : (fetch c).isSome) :
    c ∉ root_items R fetch
    ∧ ((∀ q, (q, c) ∈ R → fetch q = none) →
        (∀ q, c ∉ sorted_items R fetch q)
        ∧ ∀ ts, get_work_items_hierarchy R fetch = some ts → forest_count c ts = 0) := by
  constructor
  · intro hroot
    exact ((mem_root_items R fetch c).1 hroot).2
      ((mem_child_items R c).2 ⟨(p, c), hmem, rfl⟩)
  · intro hall
    have hnosort : ∀ q, c ∉ sorted_items R fetch q := by
      intro q hq
      have h := (mem_sorted_items R fetch q c).1 hq
      have hqs := (work_items_isSome_iff R fetch q).1 h.2.1
      rw [hall q h.1] at hqs
      simp at hqs
    refine ⟨hnosort, fun ts hts => ?_⟩
    refine forest_count_eq_zero ts c (fun hcmem => ?_)
    rcases (mem_forest_ids ts c).1 hcmem with ⟨t, htmem, hct⟩
    rcases allRecords_mem hts t htmem with ⟨rt, hrtmem, hrt⟩
    have hsh := to_dict_shaped (work_items_dict R fetch) (sorted_items R fetch)
      (fun j m h => work_items_id_eq R fetch j m h) _ _ _ hrt
    rcases shaped_ids _ _ t hsh.1 c hct with hh | hh
    · have hcrt : c = rt := by rw [hh, hsh.2]
      subst hcrt
      exact ((mem_root_items R fetch c).1 hrtmem).2
        ((mem_child_items R c).2 ⟨(p, c), hmem, rfl⟩)
    · rcases hh with ⟨q, hq⟩
      exact hnosort q hq

/-- C9 witness: with R = [(9,2)] and no metadata for 9, id 2 is not a root,
is attached nowhere, and occurs zero times in the (empty) output. -/
theorem c9_witness :
    2 ∉ root_items [(9, 2)] fetchET ∧ 2 ∉ sorted_items [(9, 2)] fetchET 5
      ∧ forest_count 2 [] = 0 := by
  have h := c9_orphan_target [(9, 2)] fetchET 9 2 (by decide) (by rfl) (by decide)
  have h2 := h.2 (fun q hq => by
    have hq9 : q = 9 := by simpa using hq
    rw [hq9]
    rfl)
  exact ⟨h.1, h2.1 5, h2.2 [] rfl⟩

/-- C10: when the attached parent-to-child graph is acyclic — witnessed by
a rank function that decreases along every attachment edge and is bounded
by the dictionary size, the standard height certificate of a finite DAG —
the whole build and recursive serialization terminates with a finite nested
forest; on the concrete cyclic instance 2 → 3 → 2 reachable from root 1 the
serialization of the root fails for every recursion budget, so the
recursion of to_dict is well-founded only under the acyclicity
precondition. -/
theorem c10_termination :
    (∀ (R : List (Nat × Nat)) (fetch : Nat → Option WorkItemDetails) (rank : Nat → Nat),
      (∀ p c, c ∈ sorted_items R fetch p → rank c < rank p) →
      (∀ i, (lookupId (work_items_dict R fetch) i).isSome →
          rank i ≤ (work_items_dict R fetch).length) →
      ∃ ts, get_work_items_hierarchy R fetch = some ts)
    ∧ (∀ fuel, to_dict (work_items_dict cyclic_relations fetchEFT)
        (sorted_items cyclic_relations fetchEFT) fuel 1 = none)
    ∧ get_work_items_hierarchy cyclic_relations fetchEFT = none := by
  refine ⟨fun R fetch rank h1 h2 => hierarchy_isSome R fetch rank h1 h2,
    cyclic_root_none, rfl⟩

/-- C10 witness: the acyclic build over [(1,2)] terminates (with the rank
that gives the parent height 1 and everything else 0), and the cyclic
instance fails at the concrete budget 5. -/
theorem c10_witness :
    (∃ ts, get_work_items_hierarchy [(1, 2)] fetchET = some ts)
    ∧ to_dict (work_items_dict cyclic_relations fetchEFT)
        (sorted_items cyclic_relations fetchEFT) 5 1 = none := by
  constructor
  · refine c10_termination.1 [(1, 2)] fetchET (fun i => if i = 1 then 1 else 0) ?_ ?_
    · intro p c hc
      have h := (mem_sorted_items [(1, 2)] fetchET p c).1 hc
      have hpc : p = 1 ∧ c = 2 := by
        have := h.1
        simp at this
        exact ⟨this.1, this.2⟩
      rcases hpc with ⟨hp, hc2⟩
      subst hp
      subst hc2
      simp
    · intro i _
      have hl : (work_items_dict [(1, 2)] fetchET).length = 2 := by decide
      rw [hl]
      by_cases hi : i = 1 <;> simp [hi]
  · exact c10_termination.2.1 5
